import Mathlib

/-!
Shallow embedding of the numerology / date-arithmetic engine of the
upstox-v3-nextjs repository (src/lib/dataProcessing.ts) and of the batch
annotation pipeline that drives it (processNumerology in
src/components/UpstoxConsole.tsx), together with theorems settling the
frozen claims about them.

JavaScript numbers that can be NaN are embedded as `Option Int` with
`none` playing the role of NaN (and of `undefined` where the two are
interchangeable, i.e. where the value is only compared or added).
A JavaScript function that can throw is embedded with an `Except Unit`
result; functions that cannot throw are total.
Strings handled character-by-character are embedded as `List Char`.
-/

/-- NaN-propagating addition: in JS, `NaN + x` and `x + NaN` are NaN. -/
def jsAdd : Option Int → Option Int → Option Int
  | some a, some b => some (a + b)
  | _, _ => none

/-- JS `<` comparison: any comparison involving NaN (or undefined) is false. -/
def jsLT : Option Int → Option Int → Bool
  | some a, some b => decide (a < b)
  | _, _ => false

/-- JS `>=` comparison: any comparison involving NaN (or undefined) is false. -/
def jsGE : Option Int → Option Int → Bool
  | some a, some b => decide (b ≤ a)
  | _, _ => false

/-- JS `===` on numbers: `NaN === x` is false. -/
def jsEQ : Option Int → Option Int → Bool
  | some a, some b => a == b
  | _, _ => false

/-- JS subtraction of the constant 1, NaN-propagating. -/
def jsSub1 : Option Int → Option Int
  | some a => some (a - 1)
  | none => none

/-- Whitespace skipped by JS `parseInt` before reading digits. -/
def isSpaceChar (c : Char) : Bool :=
  c == ' ' || c == '\t' || c == '\n' || c == '\r'

/-- Numeric value of a non-empty run of leading decimal digits. -/
def leadingDigitsVal (cs : List Char) : Option Nat :=
  match cs.takeWhile Char.isDigit with
  | [] => none
  | ds => some (ds.foldl (fun a c => a * 10 + (c.toNat - 48)) 0)

/-- Model of JS `parseInt(s)` (radix 10, no hex input in this code base):
skip leading whitespace, read an optional sign and then the maximal run of
leading decimal digits; `NaN` (`none`) if no digit is found. -/
def jsParseInt (cs : List Char) : Option Int :=
  match cs.dropWhile isSpaceChar with
  | '-' :: rest => (leadingDigitsVal rest).map (fun n => -(n : Int))
  | '+' :: rest => (leadingDigitsVal rest).map (fun n => (n : Int))
  | rest => (leadingDigitsVal rest).map (fun n => (n : Int))

/-- Model of JS `String.prototype.split` with a single-character separator:
keeps empty fragments, `""` splits to `[""]`. -/
def splitOnChar (sep : Char) : List Char → List (List Char)
  | [] => [[]]
  | c :: rest =>
    if c = sep then [] :: splitOnChar sep rest
    else
      match splitOnChar sep rest with
      | [] => [[c]]
      | g :: gs => (c :: g) :: gs

/-- `dateStr.includes('/') ? dateStr.split('/') : dateStr.split('-')` —
the date splitting used by every date-consuming engine function. -/
def splitDate (cs : List Char) : List (List Char) :=
  if cs.contains '/' then splitOnChar '/' cs else splitOnChar '-' cs

/-- `parseInt(parts[i])`: an out-of-range index gives `undefined`, and
`parseInt(undefined)` is NaN. -/
def parseIntAt (parts : List (List Char)) (i : Nat) : Option Int :=
  match parts[i]? with
  | some cs => jsParseInt cs
  | none => none

/-! ## Decimal digit sum

`total.toString().split('').reduce((sum, d) => sum + parseInt(d), 0)`
applied to a non-negative integer is the sum of its decimal digits.
The recursion is fuel-indexed so that it is structural (the fuel `n`
always suffices because `n / 10 < n`). -/

def digitSumGo : Nat → Nat → Nat
  | 0, n => n
  | f + 1, n => if n < 10 then n else digitSumGo f (n / 10) + n % 10

/-- Sum of the decimal digits of `n`. -/
def digitSum (n : Nat) : Nat := digitSumGo n n

theorem digitSumGo_le (f : Nat) : ∀ n : Nat, digitSumGo f n ≤ n := by
  induction f with
  | zero => intro n; simp [digitSumGo]
  | succ f ih =>
    intro n
    simp only [digitSumGo]
    split
    · exact Nat.le_refl n
    · have h1 : digitSumGo f (n / 10) ≤ n / 10 := ih (n / 10)
      omega

theorem digitSumGo_pos (f : Nat) : ∀ n : Nat, 1 ≤ n → 1 ≤ digitSumGo f n := by
  induction f with
  | zero => intro n h; simpa [digitSumGo] using h
  | succ f ih =>
    intro n h
    simp only [digitSumGo]
    split
    · exact h
    · have h10 : 10 ≤ n := by omega
      have : 1 ≤ digitSumGo f (n / 10) := ih (n / 10) (by omega)
      omega

theorem digitSum_le (n : Nat) : digitSum n ≤ n := digitSumGo_le n n

theorem digitSum_pos (n : Nat) (h : 1 ≤ n) : 1 ≤ digitSum n := digitSumGo_pos n n h

theorem digitSum_lt (n : Nat) (h : 10 ≤ n) : digitSum n < n := by
  obtain ⟨m, rfl⟩ : ∃ m, n = m + 1 := ⟨n - 1, by omega⟩
  show digitSumGo (m + 1) (m + 1) < m + 1
  simp only [digitSumGo]
  split
  · omega
  · have h1 : digitSumGo m ((m + 1) / 10) ≤ (m + 1) / 10 := digitSumGo_le m ((m + 1) / 10)
    omega

/-! ## Master-number-aware reduction loop

`const masterNumbers = [11, 22, 28, 33, 20];
 if (masterNumbers.includes(total)) return total;
 while (total > 9) {
   total = total.toString().split('').reduce((sum, d) => sum + parseInt(d), 0);
   if (masterNumbers.includes(total)) return total;
 }
 return total;`

The loop strictly decreases `total`, so fuel `total.toNat` suffices. -/

def masterNumbers : List Int := [11, 22, 28, 33, 20]

def reduceGo : Nat → Int → Int
  | 0, t => t
  | f + 1, t =>
    if 9 < t then
      let t2 : Int := (digitSum t.toNat : Nat)
      if t2 ∈ masterNumbers then t2 else reduceGo f t2
    else t

/-- The `while (total > 9)` reduction loop with its in-loop master-number
early return. -/
def reduceLoop (t : Int) : Int := reduceGo t.toNat t

/-- The shared tail of `calculateLifePath`, `calculatePersonalYear` and
`calculatePersonalMonth`: master-number check, then the reduction loop. -/
def lifePathFromTotal (total : Int) : Int :=
  if total ∈ masterNumbers then total else reduceLoop total

/-- Finishing step applied to the (possibly NaN) accumulated total:
`masterNumbers.includes(NaN)` is false and `NaN > 9` is false, so a NaN
total is returned as NaN. -/
def jsFinish : Option Int → Option Int
  | none => none
  | some total => some (lifePathFromTotal total)

/-- The possible results of the reduction: a digit 1–9 or a master number. -/
def resultList : List Int := [1, 2, 3, 4, 5, 6, 7, 8, 9, 11, 22, 28, 33, 20]

theorem reduceGo_mem (f : Nat) :
    ∀ t : Int, 1 ≤ t → t.toNat ≤ f → reduceGo f t ∈ resultList := by
  induction f with
  | zero => intro t h1 h2; omega
  | succ f ih =>
    intro t h1 h2
    simp only [reduceGo]
    split
    · rename_i h9
      by_cases hm : ((digitSum t.toNat : Nat) : Int) ∈ masterNumbers
      · simp only [hm, if_pos]
        simp only [masterNumbers, List.mem_cons, List.not_mem_nil, or_false] at hm
        simp only [resultList, List.mem_cons, List.not_mem_nil, or_false]
        omega
      · simp only [hm, if_neg, not_false_iff]
        have hpos : 1 ≤ digitSum t.toNat := digitSum_pos _ (by omega)
        have hlt : digitSum t.toNat < t.toNat := digitSum_lt _ (by omega)
        exact ih _ (by omega) (by omega)
    · have : t ≤ 9 := by omega
      simp only [resultList, List.mem_cons, List.not_mem_nil, or_false]
      omega

theorem lifePathFromTotal_mem (t : Int) (h : 1 ≤ t) : lifePathFromTotal t ∈ resultList := by
  unfold lifePathFromTotal
  split
  · rename_i hm
    simp only [masterNumbers, List.mem_cons, List.not_mem_nil, or_false] at hm
    simp only [resultList, List.mem_cons, List.not_mem_nil, or_false]
    omega
  · exact reduceGo_mem _ _ h (Nat.le_refl _)

/-! ## calculateLifePath (src/lib/dataProcessing.ts, lines 162-178)

`export function calculateLifePath(dateStr) {
   const parts = dateStr.includes('/') ? dateStr.split('/') : dateStr.split('-');
   let total = parseInt(parts[0]) + parseInt(parts[1]);
   for (const digit of parts[2].toString()) { total += parseInt(digit); }
   ... master check / reduction loop ... }`

When the split yields fewer than three parts, `parts[2]` is `undefined`
and `parts[2].toString()` throws a TypeError; this is the only way any
engine function can throw, embedded as `Except.error ()`. -/

/-- `for (const digit of yearCs) total += parseInt(digit)` starting from
the accumulated (possibly NaN) `init`. -/
def yearDigitsTotal (init : Option Int) (ys : List Char) : Option Int :=
  ys.foldl (fun acc c => jsAdd acc (jsParseInt [c])) init

def calculateLifePath (dateStr : String) : Except Unit (Option Int) :=
  match (splitDate dateStr.toList)[2]? with
  | none => .error ()
  | some yearCs =>
    .ok (jsFinish (yearDigitsTotal
      (jsAdd (parseIntAt (splitDate dateStr.toList) 0)
             (parseIntAt (splitDate dateStr.toList) 1)) yearCs))

/-! ## Chinese zodiac (src/lib/dataProcessing.ts, lines 115-160) -/

/-- The fixed `CHINESE_NEW_YEAR_DATES` table, year → `'MM-DD'` string,
transcribed verbatim from the source. -/
def CHINESE_NEW_YEAR_DATES : List (Int × String) :=
  [(1930, "01-30"), (1931, "02-17"), (1932, "02-06"), (1933, "01-26"), (1934, "02-14"),
   (1935, "02-04"), (1936, "01-24"), (1937, "02-11"), (1938, "01-31"), (1939, "02-19"),
   (1940, "02-08"), (1941, "01-27"), (1942, "02-15"), (1943, "02-05"), (1944, "01-25"),
   (1945, "02-13"), (1946, "02-02"), (1947, "01-22"), (1948, "02-10"), (1949, "01-29"),
   (1950, "02-17"), (1951, "02-06"), (1952, "01-27"), (1953, "02-14"), (1954, "02-03"),
   (1955, "01-24"), (1956, "02-12"), (1957, "01-31"), (1958, "02-18"), (1959, "02-08"),
   (1960, "01-28"), (1961, "02-15"), (1962, "02-05"), (1963, "01-25"), (1964, "02-13"),
   (1965, "02-02"), (1966, "01-21"), (1967, "02-09"), (1968, "01-30"), (1969, "02-17"),
   (1970, "02-06"), (1971, "01-27"), (1972, "02-15"), (1973, "02-03"), (1974, "01-23"),
   (1975, "02-11"), (1976, "01-31"), (1977, "02-18"), (1978, "02-07"), (1979, "01-28"),
   (1980, "02-16"), (1981, "02-05"), (1982, "01-25"), (1983, "02-13"), (1984, "02-02"),
   (1985, "02-20"), (1986, "02-09"), (1987, "01-29"), (1988, "02-17"), (1989, "02-06"),
   (1990, "01-27"), (1991, "02-15"), (1992, "02-04"), (1993, "01-23"), (1994, "02-10"),
   (1995, "01-31"), (1996, "02-19"), (1997, "02-07"), (1998, "01-28"), (1999, "02-16"),
   (2000, "02-05"), (2001, "01-24"), (2002, "02-12"), (2003, "02-01"), (2004, "01-22"),
   (2005, "02-09"), (2006, "01-29"), (2007, "02-18"), (2008, "02-07"), (2009, "01-26"),
   (2010, "02-14"), (2011, "02-03"), (2012, "01-23"), (2013, "02-10"), (2014, "01-31"),
   (2015, "02-19"), (2016, "02-08"), (2017, "01-28"), (2018, "02-16"), (2019, "02-05"),
   (2020, "01-25"), (2021, "02-12"), (2022, "02-01"), (2023, "01-22"), (2024, "02-10"),
   (2025, "01-29"), (2026, "02-17"), (2027, "02-06"), (2028, "01-26"), (2029, "02-13"),
   (2030, "02-03")]

def CHINESE_ZODIAC_ANIMALS : List String :=
  ["Rat", "Ox", "Tiger", "Rabbit", "Dragon", "Snake",
   "Horse", "Goat", "Monkey", "Rooster", "Dog", "Pig"]

/-- JS array indexing with an integer index: negative or out-of-range
indices give `undefined`. -/
def jsIndex (l : List String) (i : Int) : Option String :=
  if 0 ≤ i then l[i.toNat]? else none

/-- The `chineseYear` adjustment for a Gregorian year `y` that parsed as an
integer: look `y` up in the table; if present, split the `'MM-DD'` entry
and move to `y - 1` exactly when `(month, day)` falls strictly before it
(comparisons involving a NaN month or day are false). -/
def chineseYearOf (day month : Option Int) (y : Int) : Int :=
  match List.lookup y CHINESE_NEW_YEAR_DATES with
  | none => y
  | some cnyStr =>
    let cnyParts := splitOnChar '-' cnyStr.toList
    if jsLT month (parseIntAt cnyParts 0) ||
       (jsEQ month (parseIntAt cnyParts 0) && jsLT day (parseIntAt cnyParts 1)) then
      y - 1
    else y

/-- `getChineseZodiac`: a NaN year makes the final index NaN, and
`CHINESE_ZODIAC_ANIMALS[NaN]` is `undefined` (`none`). The JS `%` operator
is the truncating remainder, `Int.tmod`. -/
def getChineseZodiac (dateStr : String) : Option String :=
  let parts := splitDate dateStr.toList
  match parseIntAt parts 2 with
  | none => none
  | some y =>
    jsIndex CHINESE_ZODIAC_ANIMALS
      ((chineseYearOf (parseIntAt parts 0) (parseIntAt parts 1) y - 1924).tmod 12)

/-! ## normalizeMonthYear (src/lib/dataProcessing.ts, lines 180-190)

`if (dateStr.includes('-')) {
   const parts = dateStr.split('-');
   let year = parts[1];
   if (year.length === 2) { year = parseInt(year) < 50 ? '20'+year : '19'+year; }
   return parts[0] + ' ' + year;
 }
 return dateStr;`

When the input contains `-` the split always has a second part, so the
`getD []` default below is never taken. -/

def normalizeMonthYear (dateStr : String) : String :=
  let cs := dateStr.toList
  if cs.contains '-' then
    let parts := splitOnChar '-' cs
    let year := (parts[1]?).getD []
    let year' :=
      if year.length = 2 then
        if jsLT (jsParseInt year) (some 50) then '2' :: '0' :: year else '1' :: '9' :: year
      else year
    String.mk (parts.headD [] ++ ' ' :: year')
  else dateStr

/-! ## calculatePersonalYear / calculatePersonalMonth
(src/lib/dataProcessing.ts, lines 192-262)

The two functions are textually identical except that
`calculatePersonalMonth` adds `targetMonth` to the total before the year
digits. Neither can throw: every intermediate is a JS number (possibly
NaN) or, for an unresolved month name, `undefined`, which only ever flows
into comparisons (false) and additions (NaN). -/

/-- The fixed `monthMap` month-name table. -/
def monthMap : List (List Char × Int) :=
  [("Jan".toList, 1), ("January".toList, 1), ("Feb".toList, 2), ("February".toList, 2),
   ("Mar".toList, 3), ("March".toList, 3), ("Apr".toList, 4), ("April".toList, 4),
   ("May".toList, 5), ("Jun".toList, 6), ("June".toList, 6), ("Jul".toList, 7), ("July".toList, 7),
   ("Aug".toList, 8), ("August".toList, 8), ("Sep".toList, 9), ("Sept".toList, 9),
   ("September".toList, 9), ("Oct".toList, 10), ("October".toList, 10), ("Nov".toList, 11),
   ("November".toList, 11), ("Dec".toList, 12), ("December".toList, 12)]

/-- `normalizeMonthYear(targetMonthYear).split(' ')`. -/
def targetPartsOf (targetMonthYear : String) : List (List Char) :=
  splitOnChar ' ' (normalizeMonthYear targetMonthYear).toList

/-- `monthMap[targetParts[0]]` — `none` models `undefined`. -/
def targetMonthOf (targetMonthYear : String) : Option Int :=
  List.lookup ((targetPartsOf targetMonthYear).headD []) monthMap

/-- `parseInt(targetParts[1])`. -/
def targetYearOf (targetMonthYear : String) : Option Int :=
  parseIntAt (targetPartsOf targetMonthYear) 1

/-- `parseInt(incParts[0])`. -/
def birthDayOf (incorporationDateStr : String) : Option Int :=
  parseIntAt (splitDate incorporationDateStr.toList) 0

/-- `parseInt(incParts[1])`. -/
def birthMonthOf (incorporationDateStr : String) : Option Int :=
  parseIntAt (splitDate incorporationDateStr.toList) 1

/-- `const yearToUse = targetMonth >= birthMonth ? targetYear : targetYear - 1`.
With an unresolved month name `targetMonth` is `undefined`, the comparison
is false and the `targetYear - 1` branch is taken. -/
def personalYearToUse (incorporationDateStr targetMonthYear : String) : Option Int :=
  if jsGE (targetMonthOf targetMonthYear) (birthMonthOf incorporationDateStr) then
    targetYearOf targetMonthYear
  else jsSub1 (targetYearOf targetMonthYear)

/-- The total before the year digits are added: `birthDay + birthMonth`
(plus `targetMonth` for the personal-month variant). -/
def personalBase (incorporationDateStr targetMonthYear : String) (addTargetMonth : Bool) :
    Option Int :=
  let b := jsAdd (birthDayOf incorporationDateStr) (birthMonthOf incorporationDateStr)
  if addTargetMonth then jsAdd b (targetMonthOf targetMonthYear) else b

/-- `for (const digit of yearToUse.toString()) total += parseInt(digit)`:
`NaN.toString()` is `"NaN"` whose characters all parse to NaN, and a
negative number's leading `'-'` parses to NaN, so in both cases the total
becomes NaN; for a non-negative number the decimal digit sum is added. -/
def jsDigitStringSum (v init : Option Int) : Option Int :=
  match v with
  | none => none
  | some n => if 0 ≤ n then jsAdd init (some ((digitSum n.toNat : Nat) : Int)) else none

def calculatePersonalYear (incorporationDateStr targetMonthYear : String) : Option Int :=
  jsFinish (jsDigitStringSum
    (personalYearToUse incorporationDateStr targetMonthYear)
    (personalBase incorporationDateStr targetMonthYear false))

def calculatePersonalMonth (incorporationDateStr targetMonthYear : String) : Option Int :=
  jsFinish (jsDigitStringSum
    (personalYearToUse incorporationDateStr targetMonthYear)
    (personalBase incorporationDateStr targetMonthYear true))

/-! ## Batch annotation pipeline
(processNumerology, src/components/UpstoxConsole.tsx, lines 420-464)

One parsed company block of the uploaded CSV: name, optional
incorporation date, and the monthly rows. A record's `date` field is the
month/year label (e.g. `"Jan 2024"`). -/

structure MonthRow where
  date : String
  openP : String
  closeP : String
  high : String
  low : String
  changePct : String
deriving DecidableEq

structure StockData where
  stock : String
  incorporationDate : Option String
  monthlyData : List MonthRow
deriving DecidableEq

/-- One output row, with exactly the columns of the exported CSV. -/
structure OutputRow where
  stock : String
  incorporationDate : String
  companyZodiac : Option String
  lifePath : Option Int
  monthYear : String
  monthZodiac : Option String
  personalYear : Option Int
  personalMonth : Option Int
  openP : String
  closeP : String
  high : String
  low : String
  changePct : String
deriving DecidableEq

/-- The month zodiac of a record: the code builds the template literal
`` `15/${monthRow.date.split(' ')[0]}/${monthRow.date.split(' ')[1]}` ``,
where a missing second token is stringified as `"undefined"`, and passes
the result to `getChineseZodiac`. Note that the first token is the month
NAME, not a number. -/
def monthZodiacOf (date : String) : Option String :=
  let w := splitOnChar ' ' date.toList
  getChineseZodiac (String.mk
    ('1' :: '5' :: '/' :: w.headD [] ++ '/' ::
      (match w[1]? with
       | none => "undefined".toList
       | some cs => cs)))

/-- `outputRows.push({...})` for one monthly row of one company. -/
def annotateMonth (stock incDate : String) (companyZodiac : Option String)
    (lifePath : Option Int) (row : MonthRow) : OutputRow :=
  { stock := stock
    incorporationDate := incDate
    companyZodiac := companyZodiac
    lifePath := lifePath
    monthYear := normalizeMonthYear row.date
    monthZodiac := monthZodiacOf row.date
    personalYear := calculatePersonalYear incDate row.date
    personalMonth := calculatePersonalMonth incDate row.date
    openP := row.openP
    closeP := row.closeP
    high := row.high
    low := row.low
    changePct := row.changePct }

/-- Result of one run of the batch: the accumulated output rows, the log,
and whether the run completed without the outer catch firing. When
`ok = false` the outer catch fired and no CSV is produced, so `rows` is
empty in that case. -/
structure BatchResult where
  rows : List OutputRow
  log : List String
  ok : Bool
deriving DecidableEq

/-- `!incorporationDate || incorporationDate === 'Not Available'`:
a missing date, the empty string (falsy) and the sentinel all skip. -/
def shouldSkipDate : Option String → Bool
  | none => true
  | some s => s == "" || s == "Not Available"

/-- The company loop of `processNumerology`. A company with a skipped
date only contributes a log line. Inside a retained company,
`calculateLifePath(incorporationDate)` is called outside the per-record
try/catch, so a throw there (date with fewer than three parts) propagates
to the outer catch and aborts the batch; nothing called inside the
per-record try/catch can throw, so the per-record catch never fires. -/
def runBatch : List StockData → BatchResult
  | [] => ⟨[], [], true⟩
  | s :: rest =>
    if shouldSkipDate s.incorporationDate then
      let r := runBatch rest
      ⟨r.rows, ("Skipped " ++ s.stock) :: r.log, r.ok⟩
    else
      match s.incorporationDate with
      | none => ⟨[], ["Error"], false⟩
      | some incDate =>
        match calculateLifePath incDate with
        | .error _ => ⟨[], ["Error"], false⟩
        | .ok lifePath =>
          let r := runBatch rest
          if r.ok then
            ⟨s.monthlyData.map
                (annotateMonth s.stock incDate (getChineseZodiac incDate) lifePath)
              ++ r.rows,
             ("Processing " ++ s.stock) :: r.log, true⟩
          else ⟨[], ("Processing " ++ s.stock) :: r.log, false⟩

/-! ## Supporting lemmas -/

def digitChars : List Char := ['0', '1', '2', '3', '4', '5', '6', '7', '8', '9']

theorem jsParseInt_digit_char (c : Char) (hc : c ∈ digitChars) :
    ∃ v : Int, 0 ≤ v ∧ jsParseInt [c] = some v := by
  fin_cases hc <;> exact ⟨_, by decide, rfl⟩

theorem yearDigitsTotal_none (ys : List Char) : yearDigitsTotal none ys = none := by
  induction ys with
  | nil => rfl
  | cons c rest ih =>
    simp only [yearDigitsTotal, List.foldl_cons] at ih ⊢
    simpa [jsAdd] using ih

theorem yearDigitsTotal_digits :
    ∀ ys : List Char, (∀ c ∈ ys, c ∈ digitChars) → ∀ t : Int,
      ∃ k : Int, 0 ≤ k ∧ yearDigitsTotal (some t) ys = some (t + k) := by
  intro ys
  induction ys with
  | nil => intro _ t; exact ⟨0, le_refl 0, by simp [yearDigitsTotal]⟩
  | cons c rest ih =>
    intro h t
    obtain ⟨v, hv0, hv⟩ := jsParseInt_digit_char c (h c (List.mem_cons_self c rest))
    obtain ⟨k, hk0, hk⟩ := ih (fun x hx => h x (List.mem_cons_of_mem c hx)) (t + v)
    refine ⟨v + k, by omega, ?_⟩
    simp only [yearDigitsTotal, List.foldl_cons, hv, jsAdd] at hk ⊢
    rw [hk]
    ring_nf

theorem lookup_mem_keys {β : Type} :
    ∀ (l : List (Int × β)) (a : Int) (b : β),
      List.lookup a l = some b → a ∈ l.map Prod.fst := by
  intro l
  induction l with
  | nil => intro a b h; simp [List.lookup] at h
  | cons p rest ih =>
    intro a b h
    obtain ⟨k, v⟩ := p
    rw [List.lookup] at h
    by_cases hk : a == k
    · have : a = k := eq_of_beq hk
      subst this
      simp
    · simp only [hk] at h
      simp only [List.map, List.mem_cons]
      exact Or.inr (ih a b h)

theorem cny_keys_lb : ∀ p ∈ CHINESE_NEW_YEAR_DATES, (1930 : Int) ≤ p.1 := by decide

theorem chineseYearOf_lb (day month : Option Int) (y : Int) (h : 1924 ≤ y) :
    1924 ≤ chineseYearOf day month y := by
  unfold chineseYearOf
  cases hl : List.lookup y CHINESE_NEW_YEAR_DATES with
  | none => exact h
  | some cs =>
    have hy30 : (1930 : Int) ≤ y := by
      have hmem := lookup_mem_keys _ _ _ hl
      simp only [List.mem_map] at hmem
      obtain ⟨p, hp, hpy⟩ := hmem
      have := cny_keys_lb p hp
      omega
    dsimp only
    split <;> omega

theorem tmod_twelve_bounds (a : Int) (h : 0 ≤ a) :
    0 ≤ a.tmod 12 ∧ a.tmod 12 < 12 := by
  obtain ⟨n, rfl⟩ := Int.eq_ofNat_of_zero_le h
  show 0 ≤ (Int.ofNat n).tmod 12 ∧ (Int.ofNat n).tmod 12 < 12
  rw [show (Int.ofNat n).tmod 12 = Int.ofNat (n % 12) from rfl]
  simp only [Int.ofNat_eq_natCast]
  omega

theorem jsAdd_none_left (x : Option Int) : jsAdd none x = none := by
  cases x <;> rfl

/-! ## Claim theorems -/

/-- C1: `calculateLifePath` returns the initial total immediately, without
any digit reduction, whenever `day + month + (digit sum of the year
string)` is a master number {11, 22, 28, 33, 20}; in particular
`calculateLifePath "02/07/1981" = 28`, and a date with raw pre-reduction
sum 22 (such as `"9/9/04"`) returns 22 rather than reducing to 4. -/
theorem calculateLifePath_master_short_circuit :
    (∀ (s : String) (d m : Int) (ys : List Char) (t : Int),
      parseIntAt (splitDate s.toList) 0 = some d →
      parseIntAt (splitDate s.toList) 1 = some m →
      (splitDate s.toList)[2]? = some ys →
      yearDigitsTotal (some (d + m)) ys = some t →
      t ∈ masterNumbers →
      calculateLifePath s = .ok (some t)) ∧
    calculateLifePath "02/07/1981" = .ok (some 28) ∧
    calculateLifePath "9/9/04" = .ok (some 22) := by
  refine ⟨?_, rfl, rfl⟩
  intro s d m ys t hd hm hys htot hmast
  simp only [calculateLifePath, hys, hd, hm, jsAdd]
  rw [htot]
  simp only [jsFinish, lifePathFromTotal, if_pos hmast]

/-- Witness for C1 at the master-sum-22 date `"9/9/04"`. -/
theorem calculateLifePath_master_short_circuit_witness :
    calculateLifePath "9/9/04" = .ok (some 22) :=
  calculateLifePath_master_short_circuit.1 "9/9/04" 9 9 ['0', '4'] 22
    rfl rfl rfl rfl (by decide)

/-- C2: for every date string whose components parse with day in [1,31],
month in [1,12] and an all-digit year token, `calculateLifePath` returns a
value in {1..9} ∪ {11, 22, 28, 33, 20}. -/
theorem calculateLifePath_result_range :
    ∀ (s : String) (d m : Int) (ys : List Char),
      parseIntAt (splitDate s.toList) 0 = some d →
      parseIntAt (splitDate s.toList) 1 = some m →
      (splitDate s.toList)[2]? = some ys →
      1 ≤ d → d ≤ 31 → 1 ≤ m → m ≤ 12 →
      (∀ c ∈ ys, c ∈ digitChars) →
      ∃ r : Int, calculateLifePath s = .ok (some r) ∧ r ∈ resultList := by
  intro s d m ys hd hm hys hd1 hd31 hm1 hm12 hdig
  obtain ⟨k, hk0, hk⟩ := yearDigitsTotal_digits ys hdig (d + m)
  refine ⟨lifePathFromTotal (d + m + k), ?_, ?_⟩
  · simp only [calculateLifePath, hys, hd, hm, jsAdd]
    rw [hk]
    rfl
  · exact lifePathFromTotal_mem _ (by omega)

/-- Witness for C2 at `"15/06/2001"`. -/
theorem calculateLifePath_result_range_witness :
    ∃ r : Int, calculateLifePath "15/06/2001" = .ok (some r) ∧ r ∈ resultList :=
  calculateLifePath_result_range "15/06/2001" 15 6 ['2', '0', '0', '1']
    rfl rfl rfl (by decide) (by decide) (by decide) (by decide) (by decide)

/-- C7 (amended): `calculateLifePath` does not throw on any input whose
date split has at least three parts — unparseable components become NaN
and propagate to a NaN result — but on an input with fewer than three
parts (e.g. no delimiter at all) the access `parts[2].toString()` throws a
TypeError, embedded as `Except.error ()`. -/
theorem calculateLifePath_throw_behavior :
    (∀ s : String, 3 ≤ (splitDate s.toList).length →
      ∃ v, calculateLifePath s = .ok v) ∧
    (∀ s : String, 3 ≤ (splitDate s.toList).length →
      parseIntAt (splitDate s.toList) 0 = none →
      calculateLifePath s = .ok none) ∧
    (∀ s : String, (splitDate s.toList).length < 3 →
      calculateLifePath s = .error ()) := by
  refine ⟨?_, ?_, ?_⟩
  · intro s h
    obtain ⟨ys, hys⟩ : ∃ ys, (splitDate s.toList)[2]? = some ys := by
      rw [List.getElem?_eq_getElem (show 2 < (splitDate s.toList).length by omega)]
      exact ⟨_, rfl⟩
    refine ⟨jsFinish (yearDigitsTotal
      (jsAdd (parseIntAt (splitDate s.toList) 0) (parseIntAt (splitDate s.toList) 1)) ys), ?_⟩
    simp only [calculateLifePath, hys]
  · intro s h h0
    obtain ⟨ys, hys⟩ : ∃ ys, (splitDate s.toList)[2]? = some ys := by
      rw [List.getElem?_eq_getElem (show 2 < (splitDate s.toList).length by omega)]
      exact ⟨_, rfl⟩
    simp only [calculateLifePath, hys, h0]
    rw [jsAdd_none_left, yearDigitsTotal_none]
    rfl
  · intro s h
    have h2 : (splitDate s.toList)[2]? = none := List.getElem?_eq_none (by omega)
    simp only [calculateLifePath, h2]

/-- Counterexample to C7 as stated: on the delimiter-free string
`"hello"` the split has a single part, `parts[2]` is `undefined`, and
`calculateLifePath` throws instead of failing silently. -/
theorem calculateLifePath_throws_counterexample :
    calculateLifePath "hello" = .error () := rfl

/-- Witness for C7 (amended): a three-part garbage date gives a NaN
result without throwing, and a one-part string throws. -/
theorem calculateLifePath_throw_behavior_witness :
    calculateLifePath "a/b/c" = .ok none ∧ calculateLifePath "nodate" = .error () :=
  ⟨calculateLifePath_throw_behavior.2.1 "a/b/c" (by decide) (by decide),
   calculateLifePath_throw_behavior.2.2 "nodate" (by decide)⟩

/-- C3: in both `calculatePersonalYear` and `calculatePersonalMonth`, when
the incorporation date parses to `birthMonth` and the target label
resolves to `targetMonth`/`targetYear`, the year whose digits are summed
is `targetYear` when `targetMonth >= birthMonth` and `targetYear - 1`
otherwise; concretely, for incorporation date `15/6/2000`, target
`"Jun 2024"` uses 2024 and target `"May 2024"` uses 2023. -/
theorem personal_year_to_use_rule :
    (∀ (inc target : String) (bd bm tm ty : Int),
      birthDayOf inc = some bd →
      birthMonthOf inc = some bm →
      targetMonthOf target = some tm →
      targetYearOf target = some ty →
      0 ≤ ty - 1 →
      calculatePersonalYear inc target =
        some (lifePathFromTotal (bd + bm +
          ((digitSum (if bm ≤ tm then ty else ty - 1).toNat : Nat) : Int))) ∧
      calculatePersonalMonth inc target =
        some (lifePathFromTotal (bd + bm + tm +
          ((digitSum (if bm ≤ tm then ty else ty - 1).toNat : Nat) : Int)))) ∧
    calculatePersonalYear "15/6/2000" "Jun 2024" = some 11 ∧
    calculatePersonalYear "15/6/2000" "May 2024" = some 28 ∧
    calculatePersonalMonth "15/6/2000" "Jun 2024" = some 8 ∧
    calculatePersonalMonth "15/6/2000" "May 2024" = some 33 := by
  refine ⟨?_, rfl, rfl, rfl, rfl⟩
  intro inc target bd bm tm ty hbd hbm htm hty h1
  have hyu : personalYearToUse inc target = some (if bm ≤ tm then ty else ty - 1) := by
    simp only [personalYearToUse, htm, hbm, hty, jsGE, jsSub1]
    by_cases hc : bm ≤ tm
    · simp [hc]
    · simp [hc]
  have hyu0 : 0 ≤ (if bm ≤ tm then ty else ty - 1) := by split <;> omega
  constructor
  · simp only [calculatePersonalYear, personalBase, hyu, hbd, hbm, jsAdd, Bool.false_eq_true,
      if_false, jsDigitStringSum, if_pos hyu0, jsFinish]
  · simp only [calculatePersonalMonth, personalBase, hyu, hbd, hbm, htm, jsAdd, if_true,
      jsDigitStringSum, if_pos hyu0, jsFinish]

/-- Witness for C3: the boundary pair from the specification,
incorporation date `15/6/2000` against `"Jun 2024"` (year used 2024) and
`"May 2024"` (year used 2023). -/
theorem personal_year_to_use_rule_witness :
    calculatePersonalYear "15/6/2000" "Jun 2024" =
      some (lifePathFromTotal (15 + 6 + ((digitSum (2024 : Int).toNat : Nat) : Int))) ∧
    calculatePersonalYear "15/6/2000" "May 2024" =
      some (lifePathFromTotal (15 + 6 + ((digitSum (2023 : Int).toNat : Nat) : Int))) := by
  have h1 := (personal_year_to_use_rule.1 "15/6/2000" "Jun 2024" 15 6 6 2024
    rfl rfl rfl rfl (by decide)).1
  have h2 := (personal_year_to_use_rule.1 "15/6/2000" "May 2024" 15 6 5 2024
    rfl rfl rfl rfl (by decide)).1
  constructor
  · exact h1.trans (by decide)
  · exact h2.trans (by decide)

/-- Counterexample to C5 as stated: with the unresolvable month token
`"Foo"`, neither function fails — `calculatePersonalYear` returns the
ordinary numeric result 28 and `calculatePersonalMonth` returns NaN. -/
theorem personal_invalid_month_counterexample :
    targetMonthOf "Foo 2024" = none ∧
    calculatePersonalYear "15/6/2000" "Foo 2024" = some 28 ∧
    calculatePersonalMonth "15/6/2000" "Foo 2024" = none :=
  ⟨rfl, rfl, rfl⟩

/-- C5 (amended): with a month token that is not a key of the month-name
map, neither function throws an `InvalidMonthName` error: the undefined
month compares false against `birthMonth`, so `calculatePersonalYear`
returns the ordinary number computed with `yearToUse = targetYear - 1`,
while `calculatePersonalMonth` returns NaN because the undefined month
poisons its total. -/
theorem personal_invalid_month_behavior :
    ∀ (inc target : String) (bd bm ty : Int),
      birthDayOf inc = some bd →
      birthMonthOf inc = some bm →
      targetMonthOf target = none →
      targetYearOf target = some ty →
      0 ≤ ty - 1 →
      calculatePersonalYear inc target =
        some (lifePathFromTotal (bd + bm + ((digitSum (ty - 1).toNat : Nat) : Int))) ∧
      calculatePersonalMonth inc target = none := by
  intro inc target bd bm ty hbd hbm htm hty h1
  have hyu : personalYearToUse inc target = some (ty - 1) := by
    simp only [personalYearToUse, htm, hbm, hty, jsGE, jsSub1, Bool.false_eq_true, if_false]
  constructor
  · simp only [calculatePersonalYear, personalBase, hyu, hbd, hbm, jsAdd, Bool.false_eq_true,
      if_false, jsDigitStringSum, if_pos h1, jsFinish]
  · simp only [calculatePersonalMonth, personalBase, hyu, hbd, hbm, htm, jsAdd, if_true,
      jsDigitStringSum, if_pos h1, jsFinish]

/-- Witness for C5 (amended) at incorporation date `15/6/2000` and target
`"Foo 2024"`. -/
theorem personal_invalid_month_behavior_witness :
    calculatePersonalYear "15/6/2000" "Foo 2024" =
      some (lifePathFromTotal (15 + 6 + ((digitSum (2024 - 1 : Int).toNat : Nat) : Int))) ∧
    calculatePersonalMonth "15/6/2000" "Foo 2024" = none :=
  personal_invalid_month_behavior "15/6/2000" "Foo 2024" 15 6 2024
    rfl rfl rfl rfl (by decide)

/-- C4: for a date whose components parse as integers, when the year is a
key of the Lunar-New-Year table `getChineseZodiac` uses effective year
`year - 1` exactly when `(month, day)` falls strictly before the table
entry, and `year` otherwise; when the year is absent the effective year is
the year unchanged; concretely `getChineseZodiac "05/02/2024" = "Rabbit"`
and `getChineseZodiac "15/02/2024" = "Dragon"`. -/
theorem getChineseZodiac_effective_year :
    getChineseZodiac "05/02/2024" = some "Rabbit" ∧
    getChineseZodiac "15/02/2024" = some "Dragon" ∧
    (∀ (s : String) (d m y cm cd : Int) (cs : String),
      parseIntAt (splitDate s.toList) 0 = some d →
      parseIntAt (splitDate s.toList) 1 = some m →
      parseIntAt (splitDate s.toList) 2 = some y →
      List.lookup y CHINESE_NEW_YEAR_DATES = some cs →
      parseIntAt (splitOnChar '-' cs.toList) 0 = some cm →
      parseIntAt (splitOnChar '-' cs.toList) 1 = some cd →
      getChineseZodiac s = jsIndex CHINESE_ZODIAC_ANIMALS
        (((if m < cm ∨ (m = cm ∧ d < cd) then y - 1 else y) - 1924).tmod 12)) ∧
    (∀ (s : String) (d m y : Int),
      parseIntAt (splitDate s.toList) 0 = some d →
      parseIntAt (splitDate s.toList) 1 = some m →
      parseIntAt (splitDate s.toList) 2 = some y →
      List.lookup y CHINESE_NEW_YEAR_DATES = none →
      getChineseZodiac s = jsIndex CHINESE_ZODIAC_ANIMALS ((y - 1924).tmod 12)) := by
  refine ⟨rfl, rfl, ?_, ?_⟩
  · intro s d m y cm cd cs hd hm hy hlk hcm hcd
    simp only [getChineseZodiac, hd, hm, hy]
    have hcy : chineseYearOf (some d) (some m) y =
        if m < cm ∨ (m = cm ∧ d < cd) then y - 1 else y := by
      simp only [chineseYearOf, hlk]
      rw [hcm, hcd]
      simp only [jsLT, jsEQ, Bool.or_eq_true, Bool.and_eq_true, decide_eq_true_eq, beq_iff_eq]
    rw [hcy]
  · intro s d m y hd hm hy hlk
    simp only [getChineseZodiac, hd, hm, hy]
    have hcy : chineseYearOf (some d) (some m) y = y := by
      simp only [chineseYearOf, hlk]
    rw [hcy]

/-- Witness for C4: `"05/03/1999"` exercises the table branch (no
adjustment, March is after the Feb 16 Lunar New Year) and `"05/03/1800"`
the year-absent branch. -/
theorem getChineseZodiac_effective_year_witness :
    getChineseZodiac "05/03/1999" = jsIndex CHINESE_ZODIAC_ANIMALS
      (((if (3 : Int) < 2 ∨ ((3 : Int) = 2 ∧ (5 : Int) < 16) then (1999 : Int) - 1 else 1999)
        - 1924).tmod 12) ∧
    getChineseZodiac "05/03/1800" = jsIndex CHINESE_ZODIAC_ANIMALS (((1800 : Int) - 1924).tmod 12) :=
  ⟨getChineseZodiac_effective_year.2.2.1 "05/03/1999" 5 3 1999 2 16 "02-16"
      rfl rfl rfl rfl rfl rfl,
   getChineseZodiac_effective_year.2.2.2 "05/03/1800" 5 3 1800 rfl rfl rfl rfl⟩

/-- C10: for every date whose components parse as integers with year at
least 1924, `getChineseZodiac` returns one of the 12 fixed animal names,
whether or not the year appears in the Lunar-New-Year table. -/
theorem getChineseZodiac_always_animal :
    ∀ (s : String) (d m y : Int),
      parseIntAt (splitDate s.toList) 0 = some d →
      parseIntAt (splitDate s.toList) 1 = some m →
      parseIntAt (splitDate s.toList) 2 = some y →
      1924 ≤ y →
      ∃ a, getChineseZodiac s = some a ∧ a ∈ CHINESE_ZODIAC_ANIMALS := by
  intro s d m y hd hm hy h1924
  simp only [getChineseZodiac, hy]
  have hcy := chineseYearOf_lb (parseIntAt (splitDate s.toList) 0)
    (parseIntAt (splitDate s.toList) 1) y h1924
  obtain ⟨hge, hlt⟩ := tmod_twelve_bounds
    (chineseYearOf (parseIntAt (splitDate s.toList) 0)
      (parseIntAt (splitDate s.toList) 1) y - 1924) (by omega)
  have hlen : ((chineseYearOf (parseIntAt (splitDate s.toList) 0)
      (parseIntAt (splitDate s.toList) 1) y - 1924).tmod 12).toNat <
      CHINESE_ZODIAC_ANIMALS.length := by
    have h12 : CHINESE_ZODIAC_ANIMALS.length = 12 := rfl
    omega
  refine ⟨_, ?_, List.getElem_mem hlen⟩
  simp only [jsIndex, if_pos hge]
  exact List.getElem?_eq_getElem hlen

/-- Witness for C10 at `"01/01/1950"` (a table year, adjusted back to
1949). -/
theorem getChineseZodiac_always_animal_witness :
    ∃ a, getChineseZodiac "01/01/1950" = some a ∧ a ∈ CHINESE_ZODIAC_ANIMALS :=
  getChineseZodiac_always_animal "01/01/1950" 1 1 1950 rfl rfl rfl (by decide)

/-- The normalization rule exactly as the specification sentence words it:
for an input containing `-`, the second part is ALWAYS expanded by
prefixing `"20"` when its numeric value is below 50 and `"19"` otherwise,
with no condition on its length. Stated only to be compared with the
source-derived `normalizeMonthYear`. -/
def normalizeMonthYearAsClaimed (dateStr : String) : String :=
  let cs := dateStr.toList
  if cs.contains '-' then
    let parts := splitOnChar '-' cs
    let year := (parts[1]?).getD []
    let year' :=
      if jsLT (jsParseInt year) (some 50) then '2' :: '0' :: year else '1' :: '9' :: year
    String.mk (parts.headD [] ++ ' ' :: year')
  else dateStr

/-- Counterexample to C6 as stated: on `"Jan-2024"` the code leaves the
4-character year part untouched and returns `"Jan 2024"`, while the
claimed unconditional rule would prefix `"19"` and produce
`"Jan 192024"`. -/
theorem normalizeMonthYear_counterexample :
    normalizeMonthYear "Jan-2024" = "Jan 2024" ∧
    normalizeMonthYearAsClaimed "Jan-2024" = "Jan 192024" ∧
    normalizeMonthYear "Jan-2024" ≠ normalizeMonthYearAsClaimed "Jan-2024" :=
  ⟨rfl, rfl, by decide⟩

/-- C6 (amended): for an input containing `-`, `normalizeMonthYear` splits
on `-` and returns `"<part1> <year>"` where the year part is expanded with
the `< 50 → "20", else "19"` prefix rule ONLY when it has exactly two
characters and is kept unchanged otherwise; an input with no `-` is
returned unchanged (hence the function is idempotent on strings already in
`"Mon YYYY"` form). -/
theorem normalizeMonthYear_behavior :
    (∀ s : String, s.toList.contains '-' = true →
      normalizeMonthYear s = String.mk ((splitOnChar '-' s.toList).headD [] ++ ' ' ::
        (if (((splitOnChar '-' s.toList)[1]?).getD []).length = 2 then
          if jsLT (jsParseInt (((splitOnChar '-' s.toList)[1]?).getD [])) (some 50) then
            '2' :: '0' :: (((splitOnChar '-' s.toList)[1]?).getD [])
          else '1' :: '9' :: (((splitOnChar '-' s.toList)[1]?).getD [])
        else (((splitOnChar '-' s.toList)[1]?).getD [])))) ∧
    (∀ s : String, s.toList.contains '-' = false → normalizeMonthYear s = s) ∧
    (∀ s : String, s.toList.contains '-' = false →
      normalizeMonthYear (normalizeMonthYear s) = normalizeMonthYear s) := by
  refine ⟨?_, ?_, ?_⟩
  · intro s h
    simp only [normalizeMonthYear, h, if_true]
  · intro s h
    simp only [normalizeMonthYear, h, Bool.false_eq_true, if_false]
  · intro s h
    simp only [normalizeMonthYear, h, Bool.false_eq_true, if_false]

/-- Witness for C6 (amended): a two-character year is windowed
(`"Mar-24"` → `"Mar 2024"`) and a string with no `-` is a fixed point. -/
theorem normalizeMonthYear_behavior_witness :
    normalizeMonthYear "Mar-24" = "Mar 2024" ∧
    normalizeMonthYear "Mar 2024" = "Mar 2024" ∧
    normalizeMonthYear (normalizeMonthYear "Mar 2024") = normalizeMonthYear "Mar 2024" := by
  refine ⟨?_, ?_, ?_⟩
  · exact (normalizeMonthYear_behavior.1 "Mar-24" (by decide)).trans (by decide)
  · exact normalizeMonthYear_behavior.2.1 "Mar 2024" (by decide)
  · exact normalizeMonthYear_behavior.2.2 "Mar 2024" (by decide)

/-- C8 failing input, evaluated on the code: the pipeline builds the
synthetic date from the month NAME (`"15/Jan/2024"`), whose month parses
as NaN, so the Lunar-New-Year adjustment of §4.4 never fires and
January 15 2024 — before the Feb 10 2024 Lunar New Year — is labelled
`"Dragon"`; the numeric synthetic date `"15/1/2024"` that the claim
describes yields `"Rabbit"`. -/
theorem monthZodiac_ignores_month_bug :
    monthZodiacOf "Jan 2024" = some "Dragon" ∧
    monthZodiacOf "Jun 2024" = some "Dragon" ∧
    getChineseZodiac "15/Jan/2024" = some "Dragon" ∧
    getChineseZodiac "15/1/2024" = some "Rabbit" :=
  ⟨rfl, rfl, rfl, rfl⟩

/-- C9: a company whose incorporation date is missing or the sentinel
`"Not Available"` contributes zero output rows, adds one skip log entry,
and leaves the batch's success and the remaining companies' processing
unchanged. -/
theorem runBatch_skips_missing_dates :
    ∀ (s : StockData) (rest : List StockData),
      s.incorporationDate = none ∨ s.incorporationDate = some "Not Available" →
      runBatch (s :: rest) =
        ⟨(runBatch rest).rows, ("Skipped " ++ s.stock) :: (runBatch rest).log,
         (runBatch rest).ok⟩ := by
  intro s rest h
  have hskip : shouldSkipDate s.incorporationDate = true := by
    rcases h with h | h <;> rw [h] <;> rfl
  simp only [runBatch, hskip, if_true]

/-- Witness for C9: a batch containing only a `"Not Available"` company
completes without error, with no output rows and one skip log entry. -/
theorem runBatch_skips_missing_dates_witness :
    runBatch [⟨"ACME", some "Not Available", []⟩] = ⟨[], ["Skipped ACME"], true⟩ :=
  (runBatch_skips_missing_dates ⟨"ACME", some "Not Available", []⟩ [] (Or.inr rfl)).trans rfl
